import Mathlib

/-!
Verification of the metric parameter-schema engine
(`src/go/pkg/metric/metric.go` of the Zabbix repository).

The Go code is shallowly embedded below:
* Go maps are modelled as association lists (`List (String × _)`); a map
  snapshot is such a list in some enumeration order, map assignment is
  `mapSet` (replace-or-append), and the `nil` interface value passed for
  the `sessions` argument is `Option.none`.
* A session record (a Go struct traversed by reflection) is modelled as
  the ordered list of its string fields, `List (String × String)`.
* A `Validator` is an opaque function `String → Option String`
  (`none` = valid, `some msg` = the validator's error), matching the Go
  `Validate(*string) error` capability.
* Go functions that can return an error or panic produce an `Outcome`:
  `ok` (normal return), `err` (a `zbxerr` error value), `panic`.
* Go's `%q` format verb is modelled by `goQuote`, which wraps the string
  in double quotes (adequate for names without escape-needing characters,
  which is the only way it is exercised here).
-/

namespace metric

inductive ParamKind
  | kindSession
  | kindConn
  | kindGeneral
deriving DecidableEq, Repr

/-- Error values produced through the `zbxerr` package: the sentinel errors
`ErrorTooManyParameters`, `ErrorTooFewParameters` (wrapped with a message),
`ErrorInvalidParams` (wrapped), and `zbxerr.New(desc).Wrap(err)` used for
validator failures. -/
inductive ZbxErr
  | tooManyParameters
  | tooFewParameters (msg : String)
  | invalidParams (msg : String)
  | invalidValidation (desc : String) (inner : String)
deriving DecidableEq, Repr

/-- Result of a Go function call: normal return, returned error, or panic. -/
inductive Outcome (α : Type)
  | ok (a : α)
  | err (e : ZbxErr)
  | panic (msg : String)
deriving DecidableEq, Repr

/-- `true` iff the outcome is a Go panic. -/
def Outcome.isPanic {α : Type} : Outcome α → Bool
  | .panic _ => true
  | _ => false

/-- `true` iff the outcome is `zbxerr.ErrorInvalidParams` (wrapped). -/
def Outcome.isInvalidParams {α : Type} : Outcome α → Bool
  | .err (.invalidParams _) => true
  | _ => false

/-- Model of Go's `%q` verb as used on parameter names and default values. -/
def goQuote (s : String) : String := "\x22" ++ s ++ "\x22"

/-- `Param` of metric.go: parameter metadata. -/
structure Param where
  name : String
  kind : ParamKind
  required : Bool
  validator : Option (String → Option String)
  defaultValue : Option String

/-- `Metric` of metric.go: description, ordered parameters, variadic flag. -/
structure Metric where
  description : String
  params : List Param
  varParam : Bool

/-- A session record: the ordered named string fields exposed (via
reflection in Go) by a session struct. -/
abbrev Session := List (String × String)

/-- A snapshot of the sessions map: its entries in some enumeration order. -/
abbrev SessionSource := List (String × Session)

/-- The `ordinalDictionary` map literal of `ordinalize`, with Go map-lookup
semantics: a key outside 0..9 yields the zero value `""`. -/
def ordinalDictionary (num : Int) : String :=
  if num = 0 then "th"
  else if num = 1 then "st"
  else if num = 2 then "nd"
  else if num = 3 then "rd"
  else if 4 ≤ num ∧ num ≤ 9 then "th"
  else ""

/-- `ordinalize` of metric.go. Note that the final lookup is
`ordinalDictionary[num]`, indexed by `num` itself, exactly as in the
source. `Int.tmod` is Go's truncated `%`. -/
def ordinalize (num : Int) : String :=
  if 11 ≤ num.tmod 100 ∧ num.tmod 100 ≤ 13 then toString num ++ "th"
  else toString num ++ ordinalDictionary num

/-- The default-value validation performed at the end of each iteration of
`New`'s loop: `some panicMessage` when the parameter has both a validator
and a default value and the validator rejects the default. -/
def checkDefault (i : Nat) (p : Param) : Option String :=
  match p.validator, p.defaultValue with
  | some f, some d =>
    match f d with
    | some e =>
      some ("invalid default value " ++ goQuote d ++ " for " ++ ordinalize ((i : Int) + 1)
        ++ " parameter " ++ goQuote p.name ++ ": " ++ e)
    | none => none
  | _, _ => none

/-- The loop of `New`, checking the construction invariants parameter by
parameter. `seen` is the contents of `paramsMap`, `i` the current index,
`c` the current `connParamIdx`. Returns `some panicMessage` on the first
violated invariant, `none` when every check passes. -/
def newLoop (seen : List String) (i : Nat) (c : Int) : List Param → Option String
  | [] => none
  | p :: rest =>
    if seen.contains p.name then
      some ("name of parameter " ++ goQuote p.name ++ " must be unique")
    else if 0 < i ∧ p.kind = ParamKind.kindSession then
      some "session must be placed first"
    else if p.kind = ParamKind.kindConn then
      if 1 < (i : Int) - c then
        some "parameters describing a connection must be placed in a row"
      else
        match checkDefault i p with
        | some msg => some msg
        | none => newLoop (p.name :: seen) (i + 1) (i : Int) rest
    else
      match checkDefault i p with
      | some msg => some msg
      | none => newLoop (p.name :: seen) (i + 1) c rest

/-- The initial `connParamIdx` of `New`: `0` when the parameter list is
non-empty and its first parameter is not of general kind, else `-1`. -/
def initConnIdx : List Param → Int
  | [] => -1
  | p :: _ => if p.kind ≠ ParamKind.kindGeneral then 0 else -1

/-- `New` of metric.go: validates the construction invariants and returns
the metric, or panics. -/
def New (description : String) (params : List Param) (varParam : Bool) : Outcome Metric :=
  match newLoop [] 0 (initConnIdx params) params with
  | some msg => .panic msg
  | none => .ok ⟨description, params, varParam⟩

/-- `findSession` of metric.go: panics when `sessions` is not a map
(modelled: the `nil` interface, `Option.none`); otherwise scans the map's
keys for an exact match and returns the matching record, or `none`. -/
def findSession (name : String) (sessions : Option SessionSource) : Outcome (Option Session) :=
  match sessions with
  | none => .panic "sessions must be map of strings"
  | some m => .ok ((m.find? (fun kv => kv.1 == name)).map Prod.snd)

/-- Go map assignment `out[k] = v`: replace the (first) entry for `k` when
present, otherwise append the new entry. -/
def mapSet : List (String × String) → String → String → List (String × String)
  | [], k, v => [(k, v)]
  | kv :: t, k, v => if kv.1 = k then (k, v) :: t else kv :: mapSet t k v

/-- Go map read `m[k]` returning `none` when absent. -/
def mapLookup : List (String × String) → String → Option String
  | [], _ => none
  | kv :: t, k => if kv.1 = k then some kv.2 else mapLookup t k

/-- `mapLookup` applied under an `Outcome`, `none` on error or panic. -/
def outLookup (o : Outcome (List (String × String))) (k : String) : Option String :=
  match o with
  | .ok m => mapLookup m k
  | _ => none

/-- The search of `mergeWithSessionData` for the schema parameter whose
name equals a session field's name: index and parameter of the first
match. -/
def findParam : List Param → String → Option (Nat × Param)
  | [], _ => none
  | p :: rest, n =>
    if p.name = n then some (0, p)
    else (findParam rest n).map (fun jp => (jp.1 + 1, jp.2))

/-- `mergeWithSessionData` of metric.go, iterating the session record's
fields in order: panics when a field has no matching schema parameter;
an empty value for a required parameter is `ErrorTooFewParameters`; an
empty value is replaced by the default when one exists; the validator,
when present, runs on the resulting value; the value is written into
`out`, overwriting any prior entry. -/
def mergeWithSessionData (out : List (String × String)) (metricParams : List Param) :
    Session → Outcome (List (String × String))
  | [] => .ok out
  | (fname, fval) :: rest =>
    match findParam metricParams fname with
    | none => .panic ("cannot find parameter " ++ goQuote fname ++ " in schema")
    | some (j, p) =>
      if fval = "" ∧ p.required = true then
        .err (.tooFewParameters (ordinalize ((j : Int) + 1) ++ " parameter "
          ++ goQuote p.name ++ " is required"))
      else
        let val := if fval = "" then p.defaultValue.getD fval else fval
        match p.validator with
        | some f =>
          match f val with
          | some e =>
            .err (.invalidValidation ("invalid " ++ ordinalize ((j : Int) + 1)
              ++ " parameter " ++ goQuote p.name) e)
          | none => mergeWithSessionData (mapSet out p.name val) metricParams rest
        | none => mergeWithSessionData (mapSet out p.name val) metricParams rest

/-- The raw argument considered present at position `i` by `EvalParams`'s
loop: `none` when `i` is out of range or the argument is the empty
string (the branch `i >= len(rawParams) || rawParams[i] == ""`). -/
def argAt (rp : List String) (i : Nat) : Option String :=
  match rp[i]? with
  | some v => if v = "" then none else some v
  | none => none

/-- One iteration of `EvalParams`'s loop over the declared parameters:
`s` is the resolved session, `i` the 0-based position, `out` the mapping
accumulated so far. -/
def evalStep (s : Option Session) (rp : List String) (i : Nat) (p : Param)
    (out : List (String × String)) : Outcome (List (String × String)) :=
  if p.kind = ParamKind.kindSession ∧ s.isSome = true then .ok out
  else
    let kind := if p.kind = ParamKind.kindSession then ParamKind.kindConn else p.kind
    let skip : Bool := !(s.isSome && decide (kind = ParamKind.kindConn))
    let ordNum := ordinalize ((i : Int) + 1)
    let finish : String → Outcome (List (String × String)) := fun v =>
      let vErr : Option String :=
        match p.validator with
        | some f => if skip then f v else none
        | none => none
      match vErr with
      | some e => .err (.invalidValidation ("invalid " ++ ordNum ++ " parameter "
          ++ goQuote p.name) e)
      | none =>
        if kind = ParamKind.kindConn then
          if s.isSome then
            .err (.invalidParams (ordNum ++ " parameter " ++ goQuote p.name
              ++ " cannot be passed along with session"))
          else .ok (mapSet out p.name v)
        else if kind = ParamKind.kindGeneral then .ok (mapSet out p.name v)
        else .ok out
    match argAt rp i with
    | none =>
      if p.required && skip then
        .err (.tooFewParameters (ordNum ++ " parameter " ++ goQuote p.name
          ++ " is required"))
      else
        match p.defaultValue with
        | some d => if skip then finish d else .ok out
        | none => .ok out
    | some v => finish v

/-- The loop of `EvalParams` over the declared parameters, threading the
accumulated output mapping and stopping at the first error. -/
def evalLoop (s : Option Session) (rp : List String) :
    Nat → List Param → List (String × String) → Outcome (List (String × String))
  | _, [], out => .ok out
  | i, p :: rest, out =>
    match evalStep s rp i p out with
    | .ok out2 => evalLoop s rp (i + 1) rest out2
    | .err e => .err e
    | .panic msg => .panic msg

/-- The session-resolution step of `EvalParams`: when at least one raw
argument was given and the first declared parameter is of session kind,
look the first raw argument up in the sessions map. Indexing
`m.params[0]` with an empty parameter list is a Go index-out-of-range
panic. -/
def resolveSession (m : Metric) (rp : List String) (sessions : Option SessionSource) :
    Outcome (Option Session) :=
  match rp, m.params with
  | [], _ => .ok none
  | _ :: _, [] => .panic "index out of range"
  | r0 :: _, p0 :: _ =>
    if p0.kind = ParamKind.kindSession then findSession r0 sessions else .ok none

/-- `EvalParams` of metric.go. -/
def EvalParams (m : Metric) (rawParams : List String) (sessions : Option SessionSource) :
    Outcome (List (String × String)) :=
  if m.varParam = false ∧ m.params.length < rawParams.length then
    .err .tooManyParameters
  else
    match resolveSession m rawParams sessions with
    | .panic msg => .panic msg
    | .err e => .err e
    | .ok s =>
      match evalLoop s rawParams 0 m.params [] with
      | .ok out =>
        match s with
        | some sess => mergeWithSessionData out m.params sess
        | none => .ok out
      | .err e => .err e
      | .panic msg => .panic msg

/-! Concrete schemas used by the spec's scenarios. -/

/-- The parameter `General "host" required` of scenarios A and B. -/
def hostParam : Param := ⟨"host", ParamKind.kindGeneral, true, none, none⟩

/-- The schema of scenarios A and B: one required general parameter. -/
def metricA : Metric := ⟨"Ping", [hostParam], false⟩

/-- The parameter `Session "session"` of scenarios C, D and E. -/
def sessionParamC : Param := ⟨"session", ParamKind.kindSession, false, none, none⟩

/-- The parameter `Connection "user" required` of scenarios C, D and E. -/
def userParamC : Param := ⟨"user", ParamKind.kindConn, true, none, none⟩

/-- The parameter `Connection "pass" required` of scenarios C, D and E. -/
def passParamC : Param := ⟨"pass", ParamKind.kindConn, true, none, none⟩

/-- The schema of scenarios C, D and E. -/
def metricC : Metric := ⟨"db", [sessionParamC, userParamC, passParamC], false⟩

/-- The session record `{user: "a", pass: "b"}` of scenarios C and E. -/
def sessDb1 : Session := [("user", "a"), ("pass", "b")]

/-- The sessions map `{"db1": {user:"a", pass:"b"}}` of scenarios C and E. -/
def sessionsC : SessionSource := [("db1", sessDb1)]

/-- A validator capability that rejects the empty string. -/
def rejectEmptyValidator : String → Option String :=
  fun v => if v = "" then some "value is empty" else none

/-- An optional connection parameter `"user"` carrying `rejectEmptyValidator`. -/
def userParamV : Param := ⟨"user", ParamKind.kindConn, false, some rejectEmptyValidator, none⟩

/-- A schema with a session parameter and the validated connection parameter. -/
def metricV : Metric := ⟨"db", [sessionParamC, userParamV], false⟩

/-- A sessions map whose `"db1"` record exposes an empty `user` field. -/
def sessionsV : SessionSource := [("db1", [("user", "")])]

/-! Helper lemmas. -/

lemma mapLookup_mapSet_self (m : List (String × String)) (k v : String) :
    mapLookup (mapSet m k v) k = some v := by
  induction m with
  | nil => simp [mapSet, mapLookup]
  | cons a t ih => by_cases h : a.1 = k <;> simp [mapSet, mapLookup, h, ih]

lemma evalLoop_append_ok (s : Option Session) (rp : List String) :
    ∀ (l1 : List Param) (l2 : List Param) (i : Nat) (out o : List (String × String)),
      evalLoop s rp i l1 out = .ok o →
      evalLoop s rp i (l1 ++ l2) out = evalLoop s rp (i + l1.length) l2 o := by
  intro l1
  induction l1 with
  | nil =>
    intro l2 i out o h
    simp only [evalLoop] at h
    cases h
    simp [evalLoop]
  | cons p t ih =>
    intro l2 i out o h
    simp only [evalLoop] at h ⊢
    cases hstep : evalStep s rp i p out with
    | ok o2 =>
      rw [hstep] at h
      simp only [List.cons_append, evalLoop, hstep]
      have hidx : i + 1 + t.length = i + (p :: t).length := by
        simp [List.length_cons]; omega
      have h' : evalLoop s rp (i + 1) t o2 = Outcome.ok o := h
      show evalLoop s rp (i + 1) (t ++ l2) o2 = evalLoop s rp (i + (p :: t).length) l2 o
      rw [ih l2 (i + 1) o2 o h', hidx]
    | err e => rw [hstep] at h; cases h
    | panic msg => rw [hstep] at h; cases h

lemma evalLoop_append_err (s : Option Session) (rp : List String) :
    ∀ (l1 : List Param) (l2 : List Param) (i : Nat) (out : List (String × String)) (e : ZbxErr),
      evalLoop s rp i l1 out = .err e →
      evalLoop s rp i (l1 ++ l2) out = .err e := by
  intro l1
  induction l1 with
  | nil =>
    intro l2 i out e h
    simp only [evalLoop] at h
    cases h
  | cons p t ih =>
    intro l2 i out e h
    simp only [evalLoop] at h ⊢
    cases hstep : evalStep s rp i p out with
    | ok o2 =>
      rw [hstep] at h
      simp only [List.cons_append, evalLoop, hstep]
      exact ih l2 (i + 1) o2 e h
    | err e2 =>
      rw [hstep] at h
      simp only [List.cons_append, evalLoop, hstep]
      exact h
    | panic msg => rw [hstep] at h; cases h

lemma evalStep_session_resolved (sess : Session) (rp : List String) (i : Nat) (p : Param)
    (out : List (String × String)) (hk : p.kind = ParamKind.kindSession) :
    evalStep (some sess) rp i p out = .ok out := by
  simp [evalStep, hk]

lemma evalStep_conn_skip (sess : Session) (rp : List String) (i : Nat) (p : Param)
    (out : List (String × String)) (hk : p.kind = ParamKind.kindConn)
    (hmiss : argAt rp i = none) :
    evalStep (some sess) rp i p out = .ok out := by
  cases hd : p.defaultValue <;> simp [evalStep, hk, hmiss, hd]

lemma evalStep_conn_present (sess : Session) (rp : List String) (i : Nat) (p : Param)
    (out : List (String × String)) (v : String) (hk : p.kind = ParamKind.kindConn)
    (hv : argAt rp i = some v) :
    evalStep (some sess) rp i p out =
      .err (.invalidParams (ordinalize ((i : Int) + 1) ++ " parameter "
        ++ goQuote p.name ++ " cannot be passed along with session")) := by
  cases hval : p.validator <;> simp [evalStep, hk, hv, hval]

lemma evalLoop_conn_invalid (sess : Session) (rp : List String) :
    ∀ (l : List Param) (i : Nat) (out : List (String × String)),
      (∀ (t : Nat) (q : Param), l[t]? = some q → q.kind = ParamKind.kindConn) →
      (∃ (t : Nat) (v : String) (q : Param), l[t]? = some q ∧ argAt rp (i + t) = some v) →
      ∃ msg, evalLoop (some sess) rp i l out = .err (.invalidParams msg) := by
  intro l
  induction l with
  | nil =>
    rintro i out hall ⟨t, v, q, hq, hv⟩
    rw [List.getElem?_nil] at hq
    cases hq
  | cons p rest ih =>
    rintro i out hall ⟨t, v, q, hq, hv⟩
    have hpk : p.kind = ParamKind.kindConn := hall 0 p (by simp)
    cases hav : argAt rp i with
    | some w =>
      refine ⟨ordinalize ((i : Int) + 1) ++ " parameter " ++ goQuote p.name
        ++ " cannot be passed along with session", ?_⟩
      simp only [evalLoop, evalStep_conn_present sess rp i p out w hpk hav]
    | none =>
      have ht : t ≠ 0 := by
        rintro rfl
        rw [Nat.add_zero, hav] at hv
        cases hv
      obtain ⟨t', rfl⟩ : ∃ t', t = t' + 1 := ⟨t - 1, by omega⟩
      simp only [evalLoop, evalStep_conn_skip sess rp i p out hpk hav]
      apply ih (i + 1) out
      · intro u q' hq'
        exact hall (u + 1) q' (by simpa using hq')
      · refine ⟨t', v, q, by simpa using hq, ?_⟩
        have : i + 1 + t' = i + (t' + 1) := by omega
        rw [this]
        exact hv

lemma newLoop_conn_adj :
    ∀ (ps : List Param) (seen : List String) (i : Nat) (c : Int),
      newLoop seen i c ps = none → c ≤ (i : Int) - 1 →
      ∀ (k : Nat) (q : Param), ps[k]? = some q → q.kind = ParamKind.kindConn →
        (k = 0 ∧ c = (i : Int) - 1) ∨
        (∃ q', ps[k - 1]? = some q' ∧ 1 ≤ k ∧ q'.kind = ParamKind.kindConn) := by
  intro ps
  induction ps with
  | nil =>
    intro seen i c h hc k q hq
    rw [List.getElem?_nil] at hq
    cases hq
  | cons p rest ih =>
    intro seen i c h hc k q hq hqk
    simp only [newLoop] at h
    by_cases h1 : seen.contains p.name
    · rw [if_pos h1] at h; cases h
    rw [if_neg h1] at h
    by_cases h2 : 0 < i ∧ p.kind = ParamKind.kindSession
    · rw [if_pos h2] at h; cases h
    rw [if_neg h2] at h
    by_cases h3 : p.kind = ParamKind.kindConn
    · rw [if_pos h3] at h
      by_cases h4 : 1 < (i : Int) - c
      · rw [if_pos h4] at h; cases h
      rw [if_neg h4] at h
      cases hcd : checkDefault i p with
      | some msg => rw [hcd] at h; cases h
      | none =>
        rw [hcd] at h
        cases k with
        | zero =>
          left
          exact ⟨rfl, by omega⟩
        | succ k' =>
          have hq' : rest[k']? = some q := by simpa using hq
          have hrec := ih (p.name :: seen) (i + 1) (i : Int) h (by push_cast; omega) k' q hq' hqk
          rcases hrec with ⟨hk0, _⟩ | ⟨q', hq'', hk1, hq'k⟩
          · subst hk0
            right
            exact ⟨p, by simp, by omega, h3⟩
          · right
            obtain ⟨u, rfl⟩ : ∃ u, k' = u + 1 := ⟨k' - 1, by omega⟩
            refine ⟨q', ?_, by omega, hq'k⟩
            simpa using hq''
    · rw [if_neg h3] at h
      cases hcd : checkDefault i p with
      | some msg => rw [hcd] at h; cases h
      | none =>
        rw [hcd] at h
        cases k with
        | zero =>
          rw [List.getElem?_cons_zero] at hq
          cases hq
          exact absurd hqk h3
        | succ k' =>
          have hq' : rest[k']? = some q := by simpa using hq
          have hrec := ih (p.name :: seen) (i + 1) c h (by push_cast; omega) k' q hq' hqk
          rcases hrec with ⟨hk0, hceq⟩ | ⟨q', hq'', hk1, hq'k⟩
          · exfalso
            push_cast at hceq hc
            omega
          · right
            obtain ⟨u, rfl⟩ : ∃ u, k' = u + 1 := ⟨k' - 1, by omega⟩
            refine ⟨q', ?_, by omega, hq'k⟩
            simpa using hq''

lemma conn_prefix_of_adj (ps' : List Param)
    (hadj : ∀ (k : Nat) (q : Param), ps'[k]? = some q → q.kind = ParamKind.kindConn →
      k = 0 ∨ ∃ q', ps'[k - 1]? = some q' ∧ 1 ≤ k ∧ q'.kind = ParamKind.kindConn) :
    ∀ (j : Nat) (q : Param), ps'[j]? = some q → q.kind = ParamKind.kindConn →
      ∀ t, t ≤ j → ∃ q', ps'[t]? = some q' ∧ q'.kind = ParamKind.kindConn := by
  intro j
  induction j with
  | zero =>
    intro q hq hk t ht
    rw [Nat.le_zero.mp ht]
    exact ⟨q, hq, hk⟩
  | succ j' ihj =>
    intro q hq hk t ht
    by_cases hteq : t = j' + 1
    · rw [hteq]
      exact ⟨q, hq, hk⟩
    · have ht' : t ≤ j' := by omega
      rcases hadj (j' + 1) q hq hk with h0 | ⟨q', hq', _, hq'k⟩
      · cases h0
      · exact ihj q' (by simpa using hq') hq'k t ht'

lemma newLoop_ne_none (f : String → Option String) (d e : String) :
    ∀ (ps : List Param) (seen : List String) (i : Nat) (c : Int) (p : Param),
      p ∈ ps → p.validator = some f → p.defaultValue = some d → f d = some e →
      newLoop seen i c ps ≠ none := by
  intro ps
  induction ps with
  | nil =>
    intro seen i c p hmem
    cases hmem
  | cons q t ih =>
    intro seen i c p hmem hv hd hf hnone
    simp only [newLoop] at hnone
    by_cases h1 : seen.contains q.name
    · rw [if_pos h1] at hnone; cases hnone
    rw [if_neg h1] at hnone
    by_cases h2 : 0 < i ∧ q.kind = ParamKind.kindSession
    · rw [if_pos h2] at hnone; cases hnone
    rw [if_neg h2] at hnone
    rcases List.mem_cons.mp hmem with rfl | hmem'
    · have hcd : checkDefault i p = some ("invalid default value " ++ goQuote d ++ " for "
          ++ ordinalize ((i : Int) + 1) ++ " parameter " ++ goQuote p.name ++ ": " ++ e) := by
        simp [checkDefault, hv, hd, hf]
      by_cases h3 : p.kind = ParamKind.kindConn
      · rw [if_pos h3] at hnone
        by_cases h4 : 1 < (i : Int) - c
        · rw [if_pos h4] at hnone; cases hnone
        · rw [if_neg h4, hcd] at hnone; cases hnone
      · rw [if_neg h3, hcd] at hnone; cases hnone
    · by_cases h3 : q.kind = ParamKind.kindConn
      · rw [if_pos h3] at hnone
        by_cases h4 : 1 < (i : Int) - c
        · rw [if_pos h4] at hnone; cases hnone
        · rw [if_neg h4] at hnone
          cases hcd : checkDefault i q with
          | some msg => rw [hcd] at hnone; cases hnone
          | none =>
            rw [hcd] at hnone
            exact ih (q.name :: seen) (i + 1) (i : Int) p hmem' hv hd hf hnone
      · rw [if_neg h3] at hnone
        cases hcd : checkDefault i q with
        | some msg => rw [hcd] at hnone; cases hnone
        | none =>
          rw [hcd] at hnone
          exact ih (q.name :: seen) (i + 1) c p hmem' hv hd hf hnone

lemma find?_eq_of_unique {α : Type} (l : List α) (pr : α → Bool) (x : α)
    (hx : x ∈ l) (hpx : pr x = true) (huniq : ∀ y ∈ l, pr y = true → y = x) :
    l.find? pr = some x := by
  induction l with
  | nil => cases hx
  | cons a t ih =>
    by_cases ha : pr a = true
    · have hax : a = x := huniq a (List.mem_cons_self a t) ha
      subst hax
      simp [List.find?_cons, ha]
    · have hxt : x ∈ t := by
        rcases List.mem_cons.mp hx with rfl | h
        · exact absurd hpx ha
        · exact h
      have ha' : pr a = false := Bool.eq_false_iff.mpr ha
      simp only [List.find?_cons, ha']
      exact ih hxt (fun y hy hpy => huniq y (List.mem_cons_of_mem a hy) hpy)

lemma find?_key_perm (s1 s2 : SessionSource) (hperm : s1.Perm s2)
    (hnd : (s1.map Prod.fst).Nodup) (n : String) :
    s1.find? (fun kv => kv.1 == n) = s2.find? (fun kv => kv.1 == n) := by
  by_cases hex : ∃ x ∈ s1, x.1 = n
  · obtain ⟨x, hx, hxn⟩ := hex
    have huniq1 : ∀ y ∈ s1, (y.1 == n) = true → y = x := by
      intro y hy hyn
      exact List.inj_on_of_nodup_map hnd hy hx (by rw [beq_iff_eq.mp hyn, hxn])
    have huniq2 : ∀ y ∈ s2, (y.1 == n) = true → y = x := fun y hy hyn =>
      huniq1 y (hperm.mem_iff.mpr hy) hyn
    rw [find?_eq_of_unique s1 (fun kv => kv.1 == n) x hx (beq_iff_eq.mpr hxn) huniq1,
      find?_eq_of_unique s2 (fun kv => kv.1 == n) x (hperm.mem_iff.mp hx)
        (beq_iff_eq.mpr hxn) huniq2]
  · have h1 : s1.find? (fun kv => kv.1 == n) = none := by
      rw [List.find?_eq_none]
      intro y hy hpy
      exact hex ⟨y, hy, beq_iff_eq.mp hpy⟩
    have h2 : s2.find? (fun kv => kv.1 == n) = none := by
      rw [List.find?_eq_none]
      intro y hy hpy
      exact hex ⟨y, hperm.mem_iff.mpr hy, beq_iff_eq.mp hpy⟩
    rw [h1, h2]

/-! Claim theorems. -/

/-- C2: evaluating the ordinal-formatting helper at the failing input 21.
The dictionary lookup `ordinalDictionary[num]` is indexed by `num` itself,
not by its last digit, so 21 misses every dictionary key and receives the
map's zero value `""`: the helper renders `"21"`, not `"21st"` as the
last-digit rule of the spec demands. -/
theorem ordinalize_at_21 : ordinalize 21 = "21" := by decide

/-- C5: Scenario C. For the schema `[Session "session", Connection "user"
required, Connection "pass" required]` and the sessions map
`{"db1": {user:"a", pass:"b"}}`, `EvalParams ["db1"]` succeeds and returns
exactly the mapping `{"user": "a", "pass": "b"}`: the connection
parameters are filled from the session record, not from raw arguments. -/
theorem scenarioC_eval :
    EvalParams metricC ["db1"] (some sessionsC) = .ok [("user", "a"), ("pass", "b")] := by
  decide

/-- C7: for every schema whose variadic flag is false, calling `EvalParams`
with more raw arguments than declared parameters always fails with
`TooManyParameters`, before any per-parameter processing (no other field
of the schema, raw argument, or session is examined). -/
theorem evalParams_too_many (m : Metric) (rp : List String) (sessions : Option SessionSource)
    (hvar : m.varParam = false) (hlen : m.params.length < rp.length) :
    EvalParams m rp sessions = .err .tooManyParameters := by
  simp [EvalParams, hvar, hlen]

/-- C7 witness: a non-variadic one-parameter schema called with two raw
arguments fails with `TooManyParameters`. -/
theorem evalParams_too_many_witness :
    EvalParams metricA ["h1", "h2"] none = .err .tooManyParameters :=
  evalParams_too_many metricA ["h1", "h2"] none rfl (by decide)

/-- C1 counterexample: Scenario D as claimed is false. With the schema
`[Session "session", Connection "user" required, Connection "pass"
required]`, raw arguments `["user1", "a", "b"]` and an empty sessions map
(no session resolves), the result mapping also contains the entry
`"session" ↦ "user1"`: the dual-purpose first parameter acts as a
connection parameter and receives the first raw value, so the result is
not exactly `{"user": "a", "pass": "b"}`. -/
theorem scenarioD_extra_session_key :
    outLookup (EvalParams metricC ["user1", "a", "b"] (some ([] : SessionSource)))
      "session" = some "user1" := by
  decide

/-- C1 amended: Scenario D returns exactly the mapping
`{"session": "user1", "user": "a", "pass": "b"}` — the direct values are
accepted, and the unresolved session parameter, acting as a connection
parameter, also receives the first raw argument. -/
theorem scenarioD_eval :
    EvalParams metricC ["user1", "a", "b"] (some ([] : SessionSource)) =
      .ok [("session", "user1"), ("user", "a"), ("pass", "b")] := by
  decide

/-- C9 counterexample: with the Scenario C schema (session-kind first
parameter), four raw arguments and the nil session source, `EvalParams`
returns `TooManyParameters` and does not panic: the arity check runs
before the session lookup, so the lookup — and its panic on a non-map
source — is not always performed when the first parameter has session
kind and the raw-argument list is non-empty. -/
theorem nilSessions_arity_preempted :
    EvalParams metricC ["db1", "a", "b", "c"] none = .err .tooManyParameters
      ∧ (EvalParams metricC ["db1", "a", "b", "c"] none).isPanic = false := by
  exact ⟨by decide, by decide⟩

/-- C9 amended: if the schema's first parameter is of session kind, at
least one raw argument is supplied, and the arity check passes,
`EvalParams` performs the session lookup, and that lookup panics when the
session source is the nil interface rather than a map; a lookup in an
empty map, by contrast, merely resolves no session. Supplying "no
sessions" safely therefore requires an empty map. -/
theorem evalParams_nil_sessions (m : Metric) (r0 : String) (rp' : List String)
    (p0 : Param) (ps' : List Param)
    (hps : m.params = p0 :: ps') (hkind : p0.kind = ParamKind.kindSession)
    (harity : ¬(m.varParam = false ∧ m.params.length < (r0 :: rp').length)) :
    EvalParams m (r0 :: rp') none = .panic "sessions must be map of strings"
      ∧ findSession r0 (some ([] : SessionSource)) = .ok none := by
  constructor
  · rw [EvalParams, if_neg harity]
    simp [resolveSession, hps, hkind, findSession]
  · simp [findSession]

/-- C9 witness: the Scenario C schema, called with one raw argument and the
nil session source, panics; the same lookup in an empty map resolves no
session. -/
theorem evalParams_nil_sessions_witness :
    EvalParams metricC ["db1"] none = .panic "sessions must be map of strings"
      ∧ findSession "db1" (some ([] : SessionSource)) = .ok none :=
  evalParams_nil_sessions metricC "db1" [] sessionParamC [userParamC, passParamC]
    rfl rfl (by decide)

/-- C3 counterexample: the validator of a matched parameter is run even
when the resulting value is empty. The schema's optional connection
parameter `"user"` carries a validator rejecting the empty string and has
no default; the resolved session record exposes `user = ""`. The claim
says the validator is run only on a non-empty resulting value, so
evaluation would succeed and write `"user" ↦ ""`; the code instead runs
the validator on `""` and fails with its wrapped validation error. -/
theorem mergeRunsValidatorOnEmpty :
    EvalParams metricV ["db1"] (some sessionsV) =
      .err (.invalidValidation "invalid 2nd parameter \x22user\x22" "value is empty") := by
  decide

/-- C3 amended: in the session-merge step, for a session field matched to
the schema parameter `p` at 0-based index `j`: an empty field value for a
required parameter fails with `TooFewParameters` naming the parameter's
ordinal and name; an empty value for an optional parameter with a default
is replaced by the default, which (when it passes the validator, if any)
is written into the output mapping; the validator, when present, is run
on the resulting value even when that value is empty, and its failure
aborts the merge with a wrapped validation error; and writes into the
output mapping overwrite any prior entry for the same name. -/
theorem mergeStep_behavior (out : List (String × String)) (ps : List Param)
    (fname fval : String) (rest : Session) (j : Nat) (p : Param)
    (hfind : findParam ps fname = some (j, p)) :
    (fval = "" → p.required = true →
      mergeWithSessionData out ps ((fname, fval) :: rest) =
        .err (.tooFewParameters (ordinalize ((j : Int) + 1) ++ " parameter "
          ++ goQuote p.name ++ " is required")))
    ∧ (∀ d, fval = "" → p.required = false → p.defaultValue = some d →
        (p.validator = none ∨ ∃ f, p.validator = some f ∧ f d = none) →
        mergeWithSessionData out ps ((fname, fval) :: rest) =
          mergeWithSessionData (mapSet out p.name d) ps rest)
    ∧ (∀ f e, ¬(fval = "" ∧ p.required = true) → p.validator = some f →
        f (if fval = "" then p.defaultValue.getD fval else fval) = some e →
        mergeWithSessionData out ps ((fname, fval) :: rest) =
          .err (.invalidValidation ("invalid " ++ ordinalize ((j : Int) + 1)
            ++ " parameter " ++ goQuote p.name) e))
    ∧ (∀ mo k v, mapLookup (mapSet mo k v) k = some v) := by
  refine ⟨?_, ?_, ?_, fun mo k v => mapLookup_mapSet_self mo k v⟩
  · intro hE hR
    simp [mergeWithSessionData, hfind, hE, hR]
  · intro d hE hR hD hV
    rcases hV with hnone | ⟨f, hf, hfd⟩
    · simp [mergeWithSessionData, hfind, hE, hR, hD, hnone]
    · simp [mergeWithSessionData, hfind, hE, hR, hD, hf, hfd]
  · intro f e hcond hf hfe
    simp [mergeWithSessionData, hfind, hcond, hf, hfe]

/-- C3 witness: applying the merge-step characterization to the schema
with the validated optional `"user"` parameter and an empty session field
value: the validator runs on the empty resulting value and its error is
returned, wrapped with the parameter's ordinal and name. -/
theorem mergeStep_behavior_witness :
    mergeWithSessionData [] [sessionParamC, userParamV] [("user", "")] =
      .err (.invalidValidation "invalid 2nd parameter \x22user\x22" "value is empty") :=
  (mergeStep_behavior [] [sessionParamC, userParamV] "user" "" [] 1 userParamV
    rfl).2.2.1 rejectEmptyValidator "value is empty" (by decide) rfl rfl

/-- C4: for every schema accepted by `New` whose first parameter is of
session kind, whenever `EvalParams` resolves a session from the first raw
argument, supplying a non-empty raw argument at the position of any
connection-kind parameter makes evaluation fail with `InvalidParams`. -/
theorem evalParams_conn_with_session (m : Metric) (r0 : String) (rp' : List String)
    (sessions : Option SessionSource) (sess : Session) (p0 : Param) (ps' : List Param)
    (hnew : ∃ M, New m.description m.params m.varParam = Outcome.ok M)
    (hps : m.params = p0 :: ps')
    (hkind : p0.kind = ParamKind.kindSession)
    (harity : ¬(m.varParam = false ∧ m.params.length < (r0 :: rp').length))
    (hfind : findSession r0 sessions = .ok (some sess))
    (hconn : ∃ (j : Nat) (q : Param) (v : String), m.params[j]? = some q ∧
      q.kind = ParamKind.kindConn ∧ argAt (r0 :: rp') j = some v) :
    (EvalParams m (r0 :: rp') sessions).isInvalidParams = true := by
  obtain ⟨M, hM⟩ := hnew
  have hnl : newLoop [] 0 (initConnIdx m.params) m.params = none := by
    cases hx : newLoop [] 0 (initConnIdx m.params) m.params with
    | some msg => simp [New, hx] at hM
    | none => rfl
  rw [hps] at hnl
  have hinit : initConnIdx (p0 :: ps') = 0 := by simp [initConnIdx, hkind]
  rw [hinit] at hnl
  have hrest : newLoop [p0.name] 1 0 ps' = none := by
    simp only [newLoop] at hnl
    rw [if_neg (by simp)] at hnl
    rw [if_neg (by simp)] at hnl
    rw [if_neg (by simp [hkind])] at hnl
    cases hcd : checkDefault 0 p0 with
    | some msg => rw [hcd] at hnl; cases hnl
    | none => rw [hcd] at hnl; exact hnl
  have hadj' : ∀ (k : Nat) (q : Param), ps'[k]? = some q → q.kind = ParamKind.kindConn →
      k = 0 ∨ ∃ q', ps'[k - 1]? = some q' ∧ 1 ≤ k ∧ q'.kind = ParamKind.kindConn := by
    intro k q hq hk
    rcases newLoop_conn_adj ps' [p0.name] 1 0 hrest (by norm_num) k q hq hk with
      ⟨hk0, _⟩ | hr
    · exact Or.inl hk0
    · exact Or.inr hr
  obtain ⟨j, q, v, hq, hqk, hv⟩ := hconn
  rw [hps] at hq
  cases j with
  | zero =>
    rw [List.getElem?_cons_zero] at hq
    cases hq
    rw [hkind] at hqk
    cases hqk
  | succ u =>
    have hq' : ps'[u]? = some q := by simpa using hq
    have hall := conn_prefix_of_adj ps' hadj' u q hq' hqk
    have hexu : ∃ (t : Nat) (v' : String) (qq : Param),
        (ps'.take (u + 1))[t]? = some qq ∧ argAt (r0 :: rp') (1 + t) = some v' := by
      refine ⟨u, v, q, ?_, ?_⟩
      · rw [List.getElem?_take_of_lt (Nat.lt_succ_self u)]
        exact hq'
      · rw [Nat.add_comm 1 u]
        exact hv
    have halltake : ∀ (t : Nat) (qq : Param), (ps'.take (u + 1))[t]? = some qq →
        qq.kind = ParamKind.kindConn := by
      intro t qq hqq
      by_cases htu : t < u + 1
      · rw [List.getElem?_take_of_lt htu] at hqq
        obtain ⟨q'', hq'', hk''⟩ := hall t (by omega)
        rw [hq''] at hqq
        cases hqq
        exact hk''
      · have hlen : (ps'.take (u + 1)).length ≤ t := by
          rw [List.length_take]
          omega
        rw [List.getElem?_eq_none hlen] at hqq
        cases hqq
    obtain ⟨msg, hloop1⟩ :=
      evalLoop_conn_invalid sess (r0 :: rp') (ps'.take (u + 1)) 1 [] halltake hexu
    have hloop2 : evalLoop (some sess) (r0 :: rp') 1 ps' [] =
        .err (.invalidParams msg) := by
      conv_lhs => rw [← List.take_append_drop (u + 1) ps']
      exact evalLoop_append_err (some sess) (r0 :: rp') (ps'.take (u + 1))
        (ps'.drop (u + 1)) 1 [] _ hloop1
    have hloopfull : evalLoop (some sess) (r0 :: rp') 0 (p0 :: ps') [] =
        .err (.invalidParams msg) := by
      simp only [evalLoop, evalStep_session_resolved sess (r0 :: rp') 0 p0 [] hkind]
      exact hloop2
    rw [EvalParams, if_neg harity]
    simp [resolveSession, hps, hkind, hfind, hloopfull, Outcome.isInvalidParams]

/-- C4 witness: Scenario E. The Scenario C schema with the session `"db1"`
resolved and direct values supplied for the connection parameters fails
with `InvalidParams`. -/
theorem evalParams_conn_with_session_witness :
    (EvalParams metricC ["db1", "a", "b"] (some sessionsC)).isInvalidParams = true :=
  evalParams_conn_with_session metricC "db1" ["a", "b"] (some sessionsC) sessDb1
    sessionParamC [userParamC, passParamC] ⟨metricC, rfl⟩ rfl rfl (by decide) rfl
    ⟨1, userParamC, "a", rfl, rfl, rfl⟩

/-- C6 counterexample: a raw-argument list in which the required
parameter's position holds an empty string, with no session resolved, can
still fail with `TooManyParameters` instead of `TooFewParameters`: the
arity check runs first. Schema `[General "host" required]` (non-variadic,
one parameter) with raw arguments `["", "x"]`. -/
theorem requiredMissing_preempted :
    EvalParams metricA ["", "x"] (some ([] : SessionSource)) = .err .tooManyParameters
      ∧ ¬∃ msg, EvalParams metricA ["", "x"] (some ([] : SessionSource)) =
          .err (.tooFewParameters msg) := by
  refine ⟨by decide, ?_⟩
  rintro ⟨msg, h⟩
  rw [(by decide : EvalParams metricA ["", "x"] (some ([] : SessionSource)) =
    .err .tooManyParameters)] at h
  simp at h

/-- C6 amended: for every schema and raw-argument list passing the arity
check, when no session is resolved and every parameter before position
`i` evaluates without error, if the parameter at position `i` is required
and its position holds no argument (or an empty string), `EvalParams`
fails with `TooFewParameters` whose message names the parameter's
1-based ordinal position and its name. -/
theorem evalParams_required_missing (m : Metric) (rp : List String)
    (sessions : Option SessionSource) (i : Nat) (p : Param) (out' : List (String × String))
    (harity : ¬(m.varParam = false ∧ m.params.length < rp.length))
    (hsess : resolveSession m rp sessions = .ok none)
    (hp : m.params[i]? = some p)
    (hreq : p.required = true)
    (hmiss : argAt rp i = none)
    (hpre : evalLoop none rp 0 (m.params.take i) [] = .ok out') :
    EvalParams m rp sessions =
      .err (.tooFewParameters (ordinalize ((i : Int) + 1) ++ " parameter "
        ++ goQuote p.name ++ " is required")) := by
  have hilen : i < m.params.length := by
    by_contra hc
    rw [List.getElem?_eq_none (Nat.le_of_not_lt hc)] at hp
    cases hp
  have hget : m.params[i] = p := by
    rw [List.getElem?_eq_getElem hilen] at hp
    exact Option.some.inj hp
  have hstep : evalStep none rp i p out' =
      .err (.tooFewParameters (ordinalize ((i : Int) + 1) ++ " parameter "
        ++ goQuote p.name ++ " is required")) := by
    simp [evalStep, hmiss, hreq]
  have hloop : evalLoop none rp 0 m.params [] =
      .err (.tooFewParameters (ordinalize ((i : Int) + 1) ++ " parameter "
        ++ goQuote p.name ++ " is required")) := by
    conv_lhs => rw [← List.take_append_drop i m.params]
    rw [evalLoop_append_ok none rp (m.params.take i) (m.params.drop i) 0 [] out' hpre]
    rw [List.drop_eq_getElem_cons hilen, hget]
    rw [List.length_take, Nat.min_eq_left (Nat.le_of_lt hilen), Nat.zero_add]
    simp only [evalLoop, hstep]
  simp only [EvalParams, if_neg harity, hsess, hloop]

/-- C6 witness: Scenario B. The one-parameter schema `[General "host"
required]` called with no raw arguments and no sessions fails with
`TooFewParameters` whose message references `1st parameter "host"`. -/
theorem evalParams_required_missing_witness :
    EvalParams metricA [] none =
      .err (.tooFewParameters "1st parameter \x22host\x22 is required") :=
  evalParams_required_missing metricA [] none 0 hostParam []
    (by decide) rfl rfl rfl rfl rfl

/-- C8: whenever some parameter of a schema carries both a validator and a
default value that the validator rejects, `New` ends in a construction-time
panic — the schema is never built, so the failure can never surface during
a later call to `EvalParams`. -/
theorem new_bad_default_panics (desc : String) (ps : List Param) (vb : Bool)
    (p : Param) (f : String → Option String) (d e : String)
    (hmem : p ∈ ps) (hval : p.validator = some f) (hdef : p.defaultValue = some d)
    (hfail : f d = some e) :
    (New desc ps vb).isPanic = true := by
  cases hnl : newLoop [] 0 (initConnIdx ps) ps with
  | some msg => simp [New, hnl, Outcome.isPanic]
  | none => exact absurd hnl (newLoop_ne_none f d e ps [] 0 (initConnIdx ps) p
      hmem hval hdef hfail)

/-- A connection parameter whose default value `""` is rejected by its own
validator. -/
def badDefaultParam : Param :=
  ⟨"user", ParamKind.kindConn, false, some rejectEmptyValidator, some ""⟩

/-- C8 witness: building a schema holding `badDefaultParam` panics at
construction. -/
theorem new_bad_default_panics_witness :
    (New "db" [badDefaultParam] false).isPanic = true :=
  new_bad_default_panics "db" [badDefaultParam] false badDefaultParam
    rejectEmptyValidator "" "value is empty" (List.mem_singleton.mpr rfl) rfl rfl rfl

/-- C10: `EvalParams` is deterministic. The embedding is a pure function of
the schema, the raw arguments and the session-source snapshot, so the only
source of run-to-run variation in the Go code is the randomized iteration
order of the sessions map in `findSession`; for any two enumeration orders
of the same map snapshot (permutations of the same duplicate-free keyed
entries) the result is identical. -/
theorem evalParams_deterministic (m : Metric) (rp : List String) (s1 s2 : SessionSource)
    (hperm : s1.Perm s2) (hnd : (s1.map Prod.fst).Nodup) :
    EvalParams m rp (some s1) = EvalParams m rp (some s2) := by
  have hfind : ∀ n, findSession n (some s1) = findSession n (some s2) := by
    intro n
    simp only [findSession, find?_key_perm s1 s2 hperm hnd n]
  have hres : resolveSession m rp (some s1) = resolveSession m rp (some s2) := by
    cases rp with
    | nil => rfl
    | cons r0 rt =>
      cases hmp : m.params with
      | nil => simp [resolveSession, hmp]
      | cons p0 pt => simp [resolveSession, hmp, hfind r0]
  simp only [EvalParams, hres]

/-- A two-session map snapshot in one enumeration order. -/
def sessionsPermA : SessionSource := [("db1", sessDb1), ("db2", [("user", "c")])]

/-- The same map snapshot in the opposite enumeration order. -/
def sessionsPermB : SessionSource := [("db2", [("user", "c")]), ("db1", sessDb1)]

/-- C10 witness: evaluating the Scenario C schema over the two enumeration
orders of the same sessions map yields identical results. -/
theorem evalParams_deterministic_witness :
    EvalParams metricC ["db1"] (some sessionsPermA) =
      EvalParams metricC ["db1"] (some sessionsPermB) :=
  evalParams_deterministic metricC ["db1"] sessionsPermA sessionsPermB
    (by decide) (by decide)

end metric
